import Mathlib

/-!
Verification of the SpotHelper trajectory core (`src/Functions.py`,
`src/SpotHelper.py`).

The two-phase integrator `simulate_freefall_and_canopy` (Functions.py
lines 206-275) is embedded over exact rationals.  The Python loop
`while alt > 0` is rendered as fuel-bounded recursion returning
`Option (List SimRec)`: `some recs` means the loop reached its exit
condition `alt <= 0` and produced exactly the records the Python code
appends; `none` means the fuel ran out with the loop still running.

The barometric pressure `air_pressure` (Functions.py lines 135-145)
raises `(1 - L*alt/T0)` to the real exponent `g*M/(R*L)`, a
transcendental operation with no exact rational counterpart; the
simulator therefore takes the pressure profile as an explicit function
argument `pressure : Q -> Q`, exactly as it takes the two wind
interpolators as function arguments (the Python function receives
`north_interp`/`east_interp` as parameters).  Every claim checked
against the integrator is independent of the pressure values; only the
fact that the density depends solely on altitude matters, which the
parametrisation preserves (Functions.py lines 248-251 compute
`rho = pressure(alt) / (R_specific * temp)` from `alt` alone).
-/

set_option maxRecDepth 8000

namespace SpotHelper

/-- One appended row of the five parallel output arrays
`alts, norths, easts, times, phases` of Functions.py lines 268-272:
post-step altitude in feet, horizontal position in metres, the time
stamp taken before `t += dt`, and the phase flag (0 = freefall,
1 = canopy). -/
structure SimRec where
  altFt : ℚ
  north : ℚ
  east : ℚ
  time : ℚ
  phase : ℕ
  deriving DecidableEq, Repr

/-- The mutable loop state of Functions.py lines 223-227: altitude in
metres, vertical velocity (positive = descending, m/s), and the north
and east positions in metres. -/
@[ext]
structure SimState where
  alt : ℚ
  vVert : ℚ
  north : ℚ
  east : ℚ
  deriving DecidableEq, Repr

/-- The `np.sign` function on rationals: 1 for positive, -1 for negative, 0 at 0. -/
def npSign (x : ℚ) : ℚ := if 0 < x then 1 else if x < 0 then -1 else 0

/-- Freefall branch of Functions.py lines 246-259: drag from the
altitude-dependent density, forward-Euler update of `v_vert`, then
`alt`, then wind drift of `north`/`east`.  `pressure` stands for
`air_pressure(alt)`; `windN`/`windE` are the interpolator values at the
pre-step altitude in feet. -/
def freefallStep (pressure : ℚ → ℚ) (massKg CdA dt windN windE : ℚ)
    (s : SimState) : SimState :=
  let temp := 288.15 - 0.0065 * s.alt
  let rho := pressure s.alt / (287.058 * temp)
  let drag := 0.5 * rho * (s.vVert * s.vVert) * CdA * npSign s.vVert
  let Fnet := massKg * 9.81 - drag
  let a := Fnet / massKg
  let v := s.vVert + a * dt
  { alt := s.alt - v * dt
    vVert := v
    north := s.north + windN * dt
    east := s.east + windE * dt }

/-- Canopy branch of Functions.py lines 260-266: vertical velocity
pinned to `canopyV` (= `canopy_v_vert_fps * 0.3048`), wind drift, and a
fixed altitude drop of `canopyV * dt`. -/
def canopyStep (canopyV dt windN windE : ℚ) (s : SimState) : SimState :=
  { alt := s.alt - canopyV * dt
    vVert := canopyV
    north := s.north + windN * dt
    east := s.east + windE * dt }

/-- One loop-body state update of Functions.py lines 242-266: the wind
interpolators are sampled at the pre-step altitude in feet, then the
branch is chosen by `alt > deploy_alt_m` on the pre-step altitude. -/
def stepOf (pressure : ℚ → ℚ) (massKg CdA : ℚ) (northInterp eastInterp : ℚ → ℚ)
    (deployAltM canopyV dt : ℚ) (s : SimState) : SimState :=
  if deployAltM < s.alt then
    freefallStep pressure massKg CdA dt
      (northInterp (s.alt / 0.3048)) (eastInterp (s.alt / 0.3048)) s
  else
    canopyStep canopyV dt
      (northInterp (s.alt / 0.3048)) (eastInterp (s.alt / 0.3048)) s

/-- The phase flag recorded for the step taken from pre-step state `s`
(Functions.py lines 259 and 266). -/
def phaseOf (deployAltM : ℚ) (s : SimState) : ℕ :=
  if deployAltM < s.alt then 0 else 1

/-- The record appended after the step from `s` at time `t`
(Functions.py lines 268-272): post-step altitude converted back to
feet, post-step positions, pre-increment time stamp, phase flag. -/
def recOf (pressure : ℚ → ℚ) (massKg CdA : ℚ) (northInterp eastInterp : ℚ → ℚ)
    (deployAltM canopyV dt : ℚ) (s : SimState) (t : ℚ) : SimRec :=
  { altFt := (stepOf pressure massKg CdA northInterp eastInterp deployAltM canopyV dt s).alt / 0.3048
    north := (stepOf pressure massKg CdA northInterp eastInterp deployAltM canopyV dt s).north
    east := (stepOf pressure massKg CdA northInterp eastInterp deployAltM canopyV dt s).east
    time := t
    phase := phaseOf deployAltM s }

/-- The `while alt > 0` loop of Functions.py lines 241-273, as
fuel-bounded recursion: `some recs` iff the loop exits within `fuel`
iterations, in which case `recs` is exactly the list of appended
records in order. -/
def simLoop (pressure : ℚ → ℚ) (massKg CdA : ℚ) (northInterp eastInterp : ℚ → ℚ)
    (deployAltM canopyV dt : ℚ) : ℕ → SimState → ℚ → Option (List SimRec)
  | 0, s, _ => if 0 < s.alt then none else some []
  | fuel + 1, s, t =>
    if 0 < s.alt then
      (simLoop pressure massKg CdA northInterp eastInterp deployAltM canopyV dt fuel
        (stepOf pressure massKg CdA northInterp eastInterp deployAltM canopyV dt s)
        (t + dt)).map
        (fun rest =>
          recOf pressure massKg CdA northInterp eastInterp deployAltM canopyV dt s t :: rest)
    else some []

/-- Embedding of `simulate_freefall_and_canopy`, Functions.py lines 206-275:
unit conversions of lines 223-230 (`alt = alt0_ft * 0.3048`,
`deploy_alt_m = deploy_alt_ft * 0.3048`,
`canopy_v_vert = canopy_v_vert_fps * 0.3048`), initial state from the
keyword arguments, time starting at 0; the extra leading argument is
the abstract pressure profile and the trailing `fuel` bounds the loop
(see the file header). -/
def simulate_freefall_and_canopy (pressure : ℚ → ℚ) (alt0_ft massKg CdA : ℚ)
    (northInterp eastInterp : ℚ → ℚ)
    (deploy_alt_ft canopy_v_vert_fps dt vVert0 north0 east0 : ℚ)
    (fuel : ℕ) : Option (List SimRec) :=
  simLoop pressure massKg CdA northInterp eastInterp
    (deploy_alt_ft * 0.3048) (canopy_v_vert_fps * 0.3048) dt fuel
    { alt := alt0_ft * 0.3048, vVert := vVert0, north := north0, east := east0 } 0

/-- Translate the horizontal components of a loop state. -/
def shiftState (dn de : ℚ) (s : SimState) : SimState :=
  { s with north := s.north + dn, east := s.east + de }

/-- Translate the horizontal components of an output record. -/
def shiftRec (dn de : ℚ) (r : SimRec) : SimRec :=
  { r with north := r.north + dn, east := r.east + de }

/-! ## Wind field: `get_wind_component_interpolators` (Functions.py lines 72-89)

The component conversion uses the transcendental `cos`/`sin`, so this
part of the embedding lives over the exact reals; the definitions are
`noncomputable` only because exact real trigonometry has no executable
counterpart.  `scipy.interpolate.interp1d(kind='linear',
fill_value="extrapolate")` on sorted breakpoints evaluates the
piecewise-linear interpolant inside the sampled range and extends the
first/last segment's line outside it. -/

/-- One row of the wind table (columns `Altitude (ft)`,
`Wind Speed (m/s)`, `Wind Direction (deg)`). -/
structure WindSample where
  altitudeFt : ℝ
  speedMps : ℝ
  directionDeg : ℝ

/-- Breakpoint table for the north component, Functions.py line 82:
`north_winds = wind_speeds * np.cos(np.radians(wind_dirs)) * -1`
(`np.radians(d) = d * pi / 180`), keyed by sample altitude. -/
noncomputable def windNorthTable (tbl : List WindSample) : List (ℝ × ℝ) :=
  tbl.map fun w =>
    (w.altitudeFt, w.speedMps * Real.cos (w.directionDeg * Real.pi / 180) * (-1))

/-- Breakpoint table for the east component, Functions.py line 83:
`east_winds = wind_speeds * np.sin(np.radians(wind_dirs)) * -1`. -/
noncomputable def windEastTable (tbl : List WindSample) : List (ℝ × ℝ) :=
  tbl.map fun w =>
    (w.altitudeFt, w.speedMps * Real.sin (w.directionDeg * Real.pi / 180) * (-1))

/-- Model of `interp1d(x, y, kind='linear', fill_value="extrapolate")` applied
to a query point, on a breakpoint list sorted by strictly increasing
abscissa: walk to the segment containing the query (the first segment
also serving all queries below the range, the last one all queries
above it) and evaluate that segment's line. -/
noncomputable def interpLinear : List (ℝ × ℝ) → ℝ → ℝ
  | (x0, y0) :: (x1, y1) :: rest, x =>
    if x ≤ x1 ∨ rest = [] then y0 + (y1 - y0) * (x - x0) / (x1 - x0)
    else interpLinear ((x1, y1) :: rest) x
  | [(_, y0)], _ => y0
  | [], _ => 0

/-- Embedding of `get_wind_component_interpolators`, Functions.py lines 72-89:
the pair `(north_interp, east_interp)`. -/
noncomputable def get_wind_component_interpolators (tbl : List WindSample) :
    (ℝ → ℝ) × (ℝ → ℝ) :=
  (interpLinear (windNorthTable tbl), interpLinear (windEastTable tbl))

/-! ## Glide footprint (SpotHelper.py lines 98-112) -/

/-- Model of `np.linspace a b n` with the default inclusive endpoint:
`a + (b - a) * k / (n - 1)` for `k = 0, ..., n - 1`. -/
noncomputable def linspace (a b : ℝ) (n : ℕ) : List ℝ :=
  (List.range n).map fun k : ℕ => a + (b - a) * k / ((n : ℝ) - 1)

/-- The glide-circle point list of `run_simulation` (SpotHelper.py
lines 98-112; identically src/src/spot_helper.py lines 79-93):
speeds converted to m/s, `canopy_time = deploy_alt_m /
canopy_v_vert_mps`, `glide_distance = canopy_v_horiz_mps *
canopy_time`, `theta = np.linspace(0, 2*pi, CIRCLE_RESOLUTION)` with
`CIRCLE_RESOLUTION = 200`, and points `(glide_distance*cos θ +
exitNorth, glide_distance*sin θ + exitEast)` (the exit offset is added
at lines 112 and 145-146). -/
noncomputable def glide_circle_points (deploy_alt_ft canopy_v_vert_fps canopy_v_horiz_fps
    exitNorth exitEast : ℝ) : List (ℝ × ℝ) :=
  let canopy_v_vert_mps := canopy_v_vert_fps * 0.3048
  let canopy_v_horiz_mps := canopy_v_horiz_fps * 0.3048
  let deploy_alt_m := deploy_alt_ft * 0.3048
  let canopy_time := deploy_alt_m / canopy_v_vert_mps
  let glide_distance := canopy_v_horiz_mps * canopy_time
  (linspace 0 (2 * Real.pi) 200).map fun θ =>
    (glide_distance * Real.cos θ + exitNorth, glide_distance * Real.sin θ + exitEast)

/-! ## Horizontal offset decoupling (exit-solver structural property)

`run_simulation` (SpotHelper.py lines 61-93) integrates once from
offset (0,0), negates the final position, and re-integrates from that
offset.  The underlying structural fact: altitude and vertical velocity
never read the horizontal position, and the horizontal position is only
translated by wind increments that depend on altitude alone. -/

lemma freefallStep_shift (pressure : ℚ → ℚ) (massKg CdA dt windN windE dn de : ℚ)
    (s : SimState) :
    freefallStep pressure massKg CdA dt windN windE (shiftState dn de s) =
      shiftState dn de (freefallStep pressure massKg CdA dt windN windE s) := by
  simp only [freefallStep, shiftState]
  refine SimState.ext rfl rfl ?_ ?_ <;> ring

lemma canopyStep_shift (canopyV dt windN windE dn de : ℚ) (s : SimState) :
    canopyStep canopyV dt windN windE (shiftState dn de s) =
      shiftState dn de (canopyStep canopyV dt windN windE s) := by
  simp only [canopyStep, shiftState]
  refine SimState.ext rfl rfl ?_ ?_ <;> ring

lemma stepOf_shift (pressure : ℚ → ℚ) (massKg CdA : ℚ) (northInterp eastInterp : ℚ → ℚ)
    (deployAltM canopyV dt dn de : ℚ) (s : SimState) :
    stepOf pressure massKg CdA northInterp eastInterp deployAltM canopyV dt
        (shiftState dn de s) =
      shiftState dn de
        (stepOf pressure massKg CdA northInterp eastInterp deployAltM canopyV dt s) := by
  have halt : (shiftState dn de s).alt = s.alt := rfl
  simp only [stepOf, halt]
  split
  · exact freefallStep_shift ..
  · exact canopyStep_shift ..

lemma recOf_shift (pressure : ℚ → ℚ) (massKg CdA : ℚ) (northInterp eastInterp : ℚ → ℚ)
    (deployAltM canopyV dt dn de t : ℚ) (s : SimState) :
    recOf pressure massKg CdA northInterp eastInterp deployAltM canopyV dt
        (shiftState dn de s) t =
      shiftRec dn de
        (recOf pressure massKg CdA northInterp eastInterp deployAltM canopyV dt s t) := by
  have halt : (shiftState dn de s).alt = s.alt := rfl
  simp only [recOf, shiftRec, stepOf_shift, phaseOf, halt]
  rfl

lemma simLoop_shift (pressure : ℚ → ℚ) (massKg CdA : ℚ) (northInterp eastInterp : ℚ → ℚ)
    (deployAltM canopyV dt dn de : ℚ) :
    ∀ (fuel : ℕ) (s : SimState) (t : ℚ),
      simLoop pressure massKg CdA northInterp eastInterp deployAltM canopyV dt fuel
          (shiftState dn de s) t =
        (simLoop pressure massKg CdA northInterp eastInterp deployAltM canopyV dt fuel
            s t).map (List.map (shiftRec dn de))
  | 0, s, t => by
    have halt : (shiftState dn de s).alt = s.alt := rfl
    simp only [simLoop, halt]
    split <;> simp
  | fuel + 1, s, t => by
    have halt : (shiftState dn de s).alt = s.alt := rfl
    simp only [simLoop, halt]
    split
    · rw [stepOf_shift,
        simLoop_shift pressure massKg CdA northInterp eastInterp deployAltM canopyV dt dn de fuel _ (t + dt)]
      cases simLoop pressure massKg CdA northInterp eastInterp deployAltM canopyV dt fuel
          (stepOf pressure massKg CdA northInterp eastInterp deployAltM canopyV dt s)
          (t + dt) with
      | none => rfl
      | some rest => simp [recOf_shift]
    · simp

lemma simulate_shift (pressure : ℚ → ℚ) (alt0_ft massKg CdA : ℚ)
    (northInterp eastInterp : ℚ → ℚ) (deploy_alt_ft canopy_v_vert_fps dt vVert0 : ℚ)
    (fuel : ℕ) (north0 east0 : ℚ) :
    simulate_freefall_and_canopy pressure alt0_ft massKg CdA northInterp eastInterp
        deploy_alt_ft canopy_v_vert_fps dt vVert0 north0 east0 fuel =
      (simulate_freefall_and_canopy pressure alt0_ft massKg CdA northInterp eastInterp
          deploy_alt_ft canopy_v_vert_fps dt vVert0 0 0 fuel).map
        (List.map (shiftRec north0 east0)) := by
  unfold simulate_freefall_and_canopy
  have hinit : ({ alt := alt0_ft * 0.3048, vVert := vVert0, north := north0, east := east0 }
      : SimState) =
      shiftState north0 east0 { alt := alt0_ft * 0.3048, vVert := vVert0, north := 0, east := 0 } := by
    simp [shiftState]
  rw [hinit, simLoop_shift]

/-- C1: for every parameter set and wind interpolators, the run of
`simulate_freefall_and_canopy` started from horizontal offset
(north0, east0) is the run started from (0, 0) with every record
translated by (north0, east0); in particular its landing record is
(north0 + Dn, east0 + De) where (Dn, De) is the landing position of the
(0, 0) run, and re-running from (-Dn, -De) — as `run_simulation` in
SpotHelper.py lines 74-93 does — lands exactly at (0, 0) in exact
arithmetic. -/
theorem C1_exit_offset_decoupling
    (pressure : ℚ → ℚ) (alt0_ft massKg CdA : ℚ) (northInterp eastInterp : ℚ → ℚ)
    (deploy_alt_ft canopy_v_vert_fps dt vVert0 : ℚ) (fuel : ℕ)
    (recs : List SimRec) (r : SimRec)
    (h0 : simulate_freefall_and_canopy pressure alt0_ft massKg CdA northInterp eastInterp
        deploy_alt_ft canopy_v_vert_fps dt vVert0 0 0 fuel = some recs)
    (hlast : recs.getLast? = some r) (north0 east0 : ℚ) :
    (simulate_freefall_and_canopy pressure alt0_ft massKg CdA northInterp eastInterp
        deploy_alt_ft canopy_v_vert_fps dt vVert0 north0 east0 fuel
        = some (recs.map (shiftRec north0 east0))
      ∧ (recs.map (shiftRec north0 east0)).getLast? = some (shiftRec north0 east0 r)
      ∧ (shiftRec north0 east0 r).north = north0 + r.north
      ∧ (shiftRec north0 east0 r).east = east0 + r.east)
    ∧ ∃ recs2, simulate_freefall_and_canopy pressure alt0_ft massKg CdA northInterp eastInterp
          deploy_alt_ft canopy_v_vert_fps dt vVert0 (-r.north) (-r.east) fuel = some recs2
        ∧ ∃ r2, recs2.getLast? = some r2 ∧ r2.north = 0 ∧ r2.east = 0 := by
  constructor
  · refine ⟨?_, ?_, ?_, ?_⟩
    · rw [simulate_shift, h0]; rfl
    · rw [List.getLast?_map, hlast]; rfl
    · simp [shiftRec, add_comm]
    · simp [shiftRec, add_comm]
  · refine ⟨recs.map (shiftRec (-r.north) (-r.east)), ?_, shiftRec (-r.north) (-r.east) r, ?_, ?_, ?_⟩
    · rw [simulate_shift, h0]; rfl
    · rw [List.getLast?_map, hlast]; rfl
    · simp [shiftRec]
    · simp [shiftRec]

/-- C1 witness: a concrete one-step canopy run with constant wind
(north 1 m/s, east 2 m/s): the (5, 7)-offset run is the (0, 0) run
shifted, and the re-run from the negated landing position lands at
(0, 0). -/
theorem C1_exit_offset_decoupling_witness :
    simulate_freefall_and_canopy (fun _ => 0) 1 1 1 (fun _ => 1) (fun _ => 2)
        2 1 1 0 5 7 2 = some ([⟨0, 1, 2, 0, 1⟩].map (shiftRec 5 7))
    ∧ ∃ recs2, simulate_freefall_and_canopy (fun _ => 0) 1 1 1 (fun _ => 1) (fun _ => 2)
          2 1 1 0 (-1) (-2) 2 = some recs2
        ∧ ∃ r2, recs2.getLast? = some r2 ∧ r2.north = 0 ∧ r2.east = 0 := by
  obtain ⟨h1, h2⟩ := C1_exit_offset_decoupling (fun _ => 0) 1 1 1 (fun _ => 1) (fun _ => 2)
    2 1 1 0 2 [⟨0, 1, 2, 0, 1⟩] ⟨0, 1, 2, 0, 1⟩
    (by norm_num [simulate_freefall_and_canopy, simLoop, stepOf, recOf, phaseOf, canopyStep,
      freefallStep, npSign]) rfl 5 7
  exact ⟨h1.1, by simpa using h2⟩

/-! ## Per-record structure of the output (phase flags, altitudes, times) -/

lemma div_c_mul_c (x : ℚ) : x / 0.3048 * 0.3048 = x :=
  div_mul_cancel₀ x (by norm_num)

/-- The first record of a completed run: its phase flag is Canopy iff
the initial altitude is at or under the deployment altitude, a first
canopy step drops the altitude by exactly `canopyV * dt`, its time
stamp is the starting time, and its recorded altitude is the post-step
altitude of the initial state. -/
lemma simLoop_head (pressure : ℚ → ℚ) (massKg CdA : ℚ) (northInterp eastInterp : ℚ → ℚ)
    (deployAltM canopyV dt : ℚ) (fuel : ℕ) (s : SimState) (t : ℚ)
    (recs : List SimRec) (r : SimRec)
    (h : simLoop pressure massKg CdA northInterp eastInterp deployAltM canopyV dt fuel s t
      = some recs)
    (hr : recs[0]? = some r) :
    (r.phase = 1 ↔ s.alt ≤ deployAltM)
    ∧ (r.phase = 1 → r.altFt * 0.3048 = s.alt - canopyV * dt)
    ∧ r.time = t
    ∧ r.altFt * 0.3048
        = (stepOf pressure massKg CdA northInterp eastInterp deployAltM canopyV dt s).alt := by
  cases fuel with
  | zero =>
    simp only [simLoop] at h
    split at h
    · exact absurd h (by simp)
    · cases h; simp at hr
  | succ fuel =>
    simp only [simLoop] at h
    split at h
    case isFalse =>
      obtain rfl : ([] : List SimRec) = recs := Option.some_inj.mp h
      simp at hr
    case isTrue =>
      obtain ⟨rest, hrest, hcons⟩ := Option.map_eq_some'.mp h
      rw [← hcons] at hr
      rw [List.getElem?_cons_zero] at hr
      cases hr
      by_cases hd : deployAltM < s.alt
      · have hph : (recOf pressure massKg CdA northInterp eastInterp deployAltM canopyV dt
            s t).phase = 0 := by simp [recOf, phaseOf, hd]
        refine ⟨?_, ?_, rfl, div_c_mul_c _⟩
        · rw [hph]
          exact iff_of_false (by norm_num) (not_le.mpr hd)
        · rw [hph]
          intro h10
          exact absurd h10 (by norm_num)
      · have hph : (recOf pressure massKg CdA northInterp eastInterp deployAltM canopyV dt
            s t).phase = 1 := by simp [recOf, phaseOf, hd]
        refine ⟨iff_of_true hph (le_of_not_lt hd), ?_, rfl, div_c_mul_c _⟩
        intro _
        simp only [recOf, stepOf, if_neg hd, canopyStep]
        rw [div_c_mul_c]

/-- Consecutive records of a completed run: the next record's phase is
Canopy iff the previous record's (post-step) altitude is at or under
the deployment altitude, and a canopy step drops the recorded altitude
by exactly `canopyV * dt` (in metres). -/
lemma simLoop_chain (pressure : ℚ → ℚ) (massKg CdA : ℚ) (northInterp eastInterp : ℚ → ℚ)
    (deployAltM canopyV dt : ℚ) :
    ∀ (fuel : ℕ) (s : SimState) (t : ℚ) (recs : List SimRec),
      simLoop pressure massKg CdA northInterp eastInterp deployAltM canopyV dt fuel s t
        = some recs →
      ∀ (k : ℕ) (r r' : SimRec), recs[k + 1]? = some r → recs[k]? = some r' →
        (r.phase = 1 ↔ r'.altFt * 0.3048 ≤ deployAltM)
        ∧ (r.phase = 1 → r.altFt * 0.3048 = r'.altFt * 0.3048 - canopyV * dt)
  | 0, s, t, recs, h => by
    simp only [simLoop] at h
    split at h
    · exact absurd h (by simp)
    · cases h; intro k r r' hr; simp at hr
  | fuel + 1, s, t, recs, h => by
    simp only [simLoop] at h
    split at h
    · obtain ⟨rest, hrest, hcons⟩ := Option.map_eq_some'.mp h
      subst hcons
      intro k r r' hr hr'
      cases k with
      | zero =>
        rw [List.getElem?_cons_zero] at hr'
        cases hr'
        rw [List.getElem?_cons_succ] at hr
        have hh := simLoop_head pressure massKg CdA northInterp eastInterp deployAltM canopyV dt
          fuel _ _ rest r hrest hr
        simp only [recOf]
        rw [div_c_mul_c]
        exact ⟨hh.1, hh.2.1⟩
      | succ k =>
        rw [List.getElem?_cons_succ] at hr hr'
        exact simLoop_chain pressure massKg CdA northInterp eastInterp deployAltM canopyV dt
          fuel _ _ rest hrest k r r' hr hr'
    · cases h; intro k r r' hr; simp at hr

lemma le_zero_of_mul_c (x : ℚ) (h : x * 0.3048 ≤ 0) : x ≤ 0 := by nlinarith

/-- Any record with the Canopy phase flag sits at or under the
deployment altitude (in metres), provided canopy steps descend. -/
lemma simLoop_canopy_low (pressure : ℚ → ℚ) (massKg CdA : ℚ)
    (northInterp eastInterp : ℚ → ℚ) (deployAltM canopyV dt : ℚ)
    (hcv : 0 ≤ canopyV * dt) :
    ∀ (fuel : ℕ) (s : SimState) (t : ℚ) (recs : List SimRec),
      simLoop pressure massKg CdA northInterp eastInterp deployAltM canopyV dt fuel s t
        = some recs →
      ∀ (k : ℕ) (r : SimRec), recs[k]? = some r → r.phase = 1 →
        r.altFt * 0.3048 ≤ deployAltM
  | 0, s, t, recs, h => by
    simp only [simLoop] at h
    split at h
    · exact absurd h (by simp)
    · cases h; intro k r hr; simp at hr
  | fuel + 1, s, t, recs, h => by
    simp only [simLoop] at h
    split at h
    case isFalse =>
      obtain rfl : ([] : List SimRec) = recs := Option.some_inj.mp h
      intro k r hr; simp at hr
    case isTrue =>
      obtain ⟨rest, hrest, hcons⟩ := Option.map_eq_some'.mp h
      subst hcons
      intro k r hr hph
      cases k with
      | zero =>
        rw [List.getElem?_cons_zero] at hr
        cases hr
        have hd : ¬ deployAltM < s.alt := by
          intro hd
          have : (recOf pressure massKg CdA northInterp eastInterp deployAltM canopyV dt
              s t).phase = 0 := by simp [recOf, phaseOf, hd]
          rw [hph] at this
          exact absurd this (by norm_num)
        simp only [recOf, stepOf, if_neg hd, canopyStep]
        rw [div_c_mul_c]
        have hsd := le_of_not_lt hd
        linarith
      | succ k =>
        rw [List.getElem?_cons_succ] at hr
        exact simLoop_canopy_low pressure massKg CdA northInterp eastInterp deployAltM canopyV dt
          hcv fuel _ _ rest hrest k r hr hph

/-- Recorded time stamps are `t, t + dt, t + 2 dt, ...` in order. -/
lemma simLoop_time (pressure : ℚ → ℚ) (massKg CdA : ℚ)
    (northInterp eastInterp : ℚ → ℚ) (deployAltM canopyV dt : ℚ) :
    ∀ (fuel : ℕ) (s : SimState) (t : ℚ) (recs : List SimRec),
      simLoop pressure massKg CdA northInterp eastInterp deployAltM canopyV dt fuel s t
        = some recs →
      ∀ (k : ℕ) (r : SimRec), recs[k]? = some r → r.time = t + k * dt
  | 0, s, t, recs, h => by
    simp only [simLoop] at h
    split at h
    · exact absurd h (by simp)
    · cases h; intro k r hr; simp at hr
  | fuel + 1, s, t, recs, h => by
    simp only [simLoop] at h
    split at h
    case isFalse =>
      obtain rfl : ([] : List SimRec) = recs := Option.some_inj.mp h
      intro k r hr; simp at hr
    case isTrue =>
      obtain ⟨rest, hrest, hcons⟩ := Option.map_eq_some'.mp h
      subst hcons
      intro k r hr
      cases k with
      | zero =>
        rw [List.getElem?_cons_zero] at hr
        cases hr
        simp [recOf]
      | succ k =>
        rw [List.getElem?_cons_succ] at hr
        have := simLoop_time pressure massKg CdA northInterp eastInterp deployAltM canopyV dt
          fuel _ _ rest hrest k r hr
        rw [this]
        push_cast
        ring

/-- A run that produced no records started at or under the ground. -/
lemma simLoop_some_nil (pressure : ℚ → ℚ) (massKg CdA : ℚ)
    (northInterp eastInterp : ℚ → ℚ) (deployAltM canopyV dt : ℚ)
    (fuel : ℕ) (s : SimState) (t : ℚ)
    (h : simLoop pressure massKg CdA northInterp eastInterp deployAltM canopyV dt fuel s t
      = some []) : s.alt ≤ 0 := by
  cases fuel with
  | zero =>
    simp only [simLoop] at h
    split at h
    · exact absurd h (by simp)
    · exact le_of_not_lt (by assumption)
  | succ fuel =>
    simp only [simLoop] at h
    split at h
    · obtain ⟨rest, _, hcons⟩ := Option.map_eq_some'.mp h
      exact absurd hcons (by simp)
    · exact le_of_not_lt (by assumption)

/-- A run started above ground records at least one step. -/
lemma simLoop_ne_nil (pressure : ℚ → ℚ) (massKg CdA : ℚ)
    (northInterp eastInterp : ℚ → ℚ) (deployAltM canopyV dt : ℚ)
    (fuel : ℕ) (s : SimState) (t : ℚ) (recs : List SimRec)
    (h : simLoop pressure massKg CdA northInterp eastInterp deployAltM canopyV dt fuel s t
      = some recs) (hpos : 0 < s.alt) : recs ≠ [] := by
  intro hnil
  subst hnil
  exact absurd (simLoop_some_nil pressure massKg CdA northInterp eastInterp deployAltM canopyV dt
    fuel s t h) (not_le.mpr hpos)

/-- The last recorded altitude of a completed run is at or under 0 ft. -/
lemma simLoop_last (pressure : ℚ → ℚ) (massKg CdA : ℚ)
    (northInterp eastInterp : ℚ → ℚ) (deployAltM canopyV dt : ℚ) :
    ∀ (fuel : ℕ) (s : SimState) (t : ℚ) (recs : List SimRec) (r : SimRec),
      simLoop pressure massKg CdA northInterp eastInterp deployAltM canopyV dt fuel s t
        = some recs →
      recs.getLast? = some r → r.altFt ≤ 0
  | 0, s, t, recs, r, h, hr => by
    simp only [simLoop] at h
    split at h
    · exact absurd h (by simp)
    · cases h; simp at hr
  | fuel + 1, s, t, recs, r, h, hr => by
    simp only [simLoop] at h
    split at h
    case isFalse =>
      obtain rfl : ([] : List SimRec) = recs := Option.some_inj.mp h
      simp at hr
    case isTrue =>
      obtain ⟨rest, hrest, hcons⟩ := Option.map_eq_some'.mp h
      subst hcons
      cases rest with
      | nil =>
        have halt := simLoop_some_nil pressure massKg CdA northInterp eastInterp deployAltM
          canopyV dt fuel _ _ hrest
        have hr0 : r = recOf pressure massKg CdA northInterp eastInterp deployAltM canopyV dt
            s t := by
          simpa using hr.symm
        subst hr0
        apply le_zero_of_mul_c
        simp only [recOf]
        rw [div_c_mul_c]
        exact halt
      | cons rr rest =>
        rw [List.getLast?_cons_cons] at hr
        exact simLoop_last pressure massKg CdA northInterp eastInterp deployAltM canopyV dt
          fuel _ _ (rr :: rest) r hrest hr

/-- Starting at or under the deployment altitude with enough fuel to
descend to the ground at the fixed canopy rate, the loop completes and
every record carries the Canopy phase flag. -/
lemma simLoop_canopy_term (pressure : ℚ → ℚ) (massKg CdA : ℚ)
    (northInterp eastInterp : ℚ → ℚ) (deployAltM canopyV dt : ℚ)
    (hcv : 0 ≤ canopyV * dt) :
    ∀ (fuel : ℕ) (s : SimState) (t : ℚ), s.alt ≤ deployAltM →
      s.alt ≤ fuel * (canopyV * dt) →
      ∃ recs, simLoop pressure massKg CdA northInterp eastInterp deployAltM canopyV dt fuel s t
          = some recs
        ∧ ∀ r ∈ recs, r.phase = 1
  | 0, s, t, hdep, hfuel => by
    have hle : s.alt ≤ 0 := by push_cast at hfuel; linarith
    refine ⟨[], ?_, by simp⟩
    simp [simLoop, not_lt.mpr hle]
  | fuel + 1, s, t, hdep, hfuel => by
    by_cases hpos : 0 < s.alt
    · have hd : ¬ deployAltM < s.alt := not_lt.mpr hdep
      have hstep : stepOf pressure massKg CdA northInterp eastInterp deployAltM canopyV dt s
          = canopyStep canopyV dt (northInterp (s.alt / 0.3048)) (eastInterp (s.alt / 0.3048))
            s := by
        simp [stepOf, hd]
      have halt' : (stepOf pressure massKg CdA northInterp eastInterp deployAltM canopyV dt
          s).alt = s.alt - canopyV * dt := by rw [hstep]; rfl
      have hdep' : (stepOf pressure massKg CdA northInterp eastInterp deployAltM canopyV dt
          s).alt ≤ deployAltM := by rw [halt']; linarith
      have hfuel' : (stepOf pressure massKg CdA northInterp eastInterp deployAltM canopyV dt
          s).alt ≤ fuel * (canopyV * dt) := by
        rw [halt']
        push_cast at hfuel ⊢
        linarith
      obtain ⟨rest, hrest, hph⟩ := simLoop_canopy_term pressure massKg CdA northInterp
        eastInterp deployAltM canopyV dt hcv fuel _ (t + dt) hdep' hfuel'
      refine ⟨recOf pressure massKg CdA northInterp eastInterp deployAltM canopyV dt s t
          :: rest, ?_, ?_⟩
      · simp only [simLoop, if_pos hpos, hrest]
        rfl
      · intro r hr
        rcases List.mem_cons.mp hr with hr0 | hrmem
        · rw [hr0]; simp [recOf, phaseOf, hd]
        · exact hph r hrmem
    · refine ⟨[], ?_, by simp⟩
      simp [simLoop, hpos]

/-- C2: counterexample to the claimed post-step transition rule.  A
valid parameter set (exit 110 ft, deploy 100 ft, positive mass, drag
area, canopy rate and time step, zero wind) whose first integration
step starts above the deployment altitude with zero vertical velocity,
so drag vanishes (`sign(0) = 0`) and the step is identical for every
pressure profile: the post-step altitude 19765/254 ft is at or under
the 100 ft deployment altitude, yet that very step is recorded with the
Freefall flag 0, not Canopy — the code tests `alt > deploy_alt_m` on
the PRE-step altitude (Functions.py line 246). -/
theorem C2_phase_transition_counterexample :
    (simulate_freefall_and_canopy (fun _ => 0) 110 1 1 (fun _ => 0) (fun _ => 0)
        100 100 1 0 0 0 3).bind List.head? = some ⟨19765/254, 0, 0, 0, 0⟩
    ∧ ((19765 : ℚ)/254 ≤ 100) := by
  constructor
  · norm_num [simulate_freefall_and_canopy, simLoop, stepOf, recOf, phaseOf, canopyStep,
      freefallStep, npSign]
  · norm_num

/-- C2 (amended): a step is recorded as Canopy iff its PRE-step
altitude is at or under deployAltitudeFt — i.e. the switch happens at
the step after the first post-step altitude ≤ deployAltitudeFt, one
step later than the claim states; the remainder of the claim holds:
once Canopy, every subsequent step is Canopy, the vertical velocity is
pinned to the canopy rate, and the recorded altitude decreases by
exactly canopyVerticalSpeed·dt (ft) per canopy step. -/
theorem C2_phase_transition_amended
    (pressure : ℚ → ℚ) (alt0_ft massKg CdA : ℚ) (northInterp eastInterp : ℚ → ℚ)
    (deploy_alt_ft canopy_v_vert_fps dt vVert0 north0 east0 : ℚ) (fuel : ℕ)
    (recs : List SimRec)
    (h : simulate_freefall_and_canopy pressure alt0_ft massKg CdA northInterp eastInterp
        deploy_alt_ft canopy_v_vert_fps dt vVert0 north0 east0 fuel = some recs)
    (hdt : 0 < dt) (hcv : 0 < canopy_v_vert_fps) :
    (∀ r, recs[0]? = some r → (r.phase = 1 ↔ alt0_ft ≤ deploy_alt_ft))
    ∧ (∀ (k : ℕ) (r r' : SimRec), recs[k + 1]? = some r → recs[k]? = some r' →
        ((r.phase = 1 ↔ r'.altFt ≤ deploy_alt_ft)
         ∧ (r'.phase = 1 → r.phase = 1)
         ∧ (r.phase = 1 → r.altFt = r'.altFt - canopy_v_vert_fps * dt)))
    ∧ (∀ (c1 d1 wN wE : ℚ) (s : SimState), (canopyStep c1 d1 wN wE s).vVert = c1) := by
  have hc : (0 : ℚ) < 0.3048 := by norm_num
  have hcc : (0.3048 : ℚ) ≠ 0 := by norm_num
  have hcvdt : 0 ≤ canopy_v_vert_fps * 0.3048 * dt :=
    mul_nonneg (mul_nonneg hcv.le hc.le) hdt.le
  unfold simulate_freefall_and_canopy at h
  refine ⟨?_, ?_, fun c1 d1 wN wE s => rfl⟩
  · intro r hr
    have hh := simLoop_head pressure massKg CdA northInterp eastInterp
      (deploy_alt_ft * 0.3048) (canopy_v_vert_fps * 0.3048) dt fuel _ _ recs r h hr
    rw [hh.1]
    exact mul_le_mul_right hc
  · intro k r r' hr hr'
    have hch := simLoop_chain pressure massKg CdA northInterp eastInterp
      (deploy_alt_ft * 0.3048) (canopy_v_vert_fps * 0.3048) dt fuel _ _ recs h k r r' hr hr'
    refine ⟨?_, ?_, ?_⟩
    · rw [hch.1]
      exact mul_le_mul_right hc
    · intro hp'
      have hlow := simLoop_canopy_low pressure massKg CdA northInterp eastInterp
        (deploy_alt_ft * 0.3048) (canopy_v_vert_fps * 0.3048) dt hcvdt fuel _ _ recs h
        k r' hr' hp'
      exact hch.1.mpr hlow
    · intro hp
      have hdrop := hch.2 hp
      apply mul_right_cancel₀ hcc
      rw [hdrop]
      ring

/-- C2 witness: in a concrete canopy-only run the single record carries
the Canopy flag, matching its pre-step altitude 1 ft ≤ deploy 2 ft. -/
theorem C2_phase_transition_amended_witness :
    ((⟨0, 0, 0, 0, 1⟩ : SimRec).phase = 1 ↔ (1 : ℚ) ≤ 2) := by
  have h := C2_phase_transition_amended (fun _ => 0) 1 1 1 (fun _ => 0) (fun _ => 0)
    2 1 1 0 0 0 2 [⟨0, 0, 0, 0, 1⟩]
    (by norm_num [simulate_freefall_and_canopy, simLoop, stepOf, recOf, phaseOf, canopyStep,
      freefallStep, npSign])
    (by norm_num) (by norm_num)
  exact h.1 ⟨0, 0, 0, 0, 1⟩ rfl

/-- C4: counterexample.  `simulate_freefall_and_canopy` contains no
parameter validation: with deployAltitudeFt = exitAltitudeFt = 10
(so deploy ≥ exit, in the claimed rejection set) the integrator runs
without any error and produces a non-empty trajectory — one canopy
record — instead of rejecting before any integration step. -/
theorem C4_invalid_parameters_counterexample :
    simulate_freefall_and_canopy (fun _ => 0) 10 1 1 (fun _ => 0) (fun _ => 0)
        10 10 1 0 0 0 2 = some [⟨0, 0, 0, 0, 1⟩]
    ∧ ((10 : ℚ) ≤ 10) := by
  constructor
  · norm_num [simulate_freefall_and_canopy, simLoop, stepOf, recOf, phaseOf, canopyStep,
      freefallStep, npSign]
  · norm_num

/-- C4 (amended): the core performs no parameter validation and no
`InvalidParameters` error exists; in particular, for every input with
deployAltitudeFt ≥ exitAltitudeFt (and positive exit altitude, canopy
rate and time step, with enough loop fuel) the integrator runs to
completion and produces a non-empty list of trajectory states. -/
theorem C4_no_parameter_validation_amended
    (pressure : ℚ → ℚ) (alt0_ft massKg CdA : ℚ) (northInterp eastInterp : ℚ → ℚ)
    (deploy_alt_ft canopy_v_vert_fps dt vVert0 north0 east0 : ℚ) (fuel : ℕ)
    (hge : alt0_ft ≤ deploy_alt_ft) (halt : 0 < alt0_ft) (hdt : 0 < dt)
    (hcv : 0 < canopy_v_vert_fps)
    (hfuel : alt0_ft ≤ fuel * (canopy_v_vert_fps * dt)) :
    ∃ recs, simulate_freefall_and_canopy pressure alt0_ft massKg CdA northInterp eastInterp
        deploy_alt_ft canopy_v_vert_fps dt vVert0 north0 east0 fuel = some recs
      ∧ recs ≠ [] := by
  have hc : (0 : ℚ) < 0.3048 := by norm_num
  have hcvdt : 0 ≤ canopy_v_vert_fps * 0.3048 * dt :=
    mul_nonneg (mul_nonneg hcv.le hc.le) hdt.le
  unfold simulate_freefall_and_canopy
  have hdep : (({ alt := alt0_ft * 0.3048, vVert := vVert0, north := north0, east := east0 }
      : SimState)).alt ≤ deploy_alt_ft * 0.3048 := by
    show alt0_ft * 0.3048 ≤ deploy_alt_ft * 0.3048
    exact (mul_le_mul_right hc).mpr hge
  have hfuel' : (({ alt := alt0_ft * 0.3048, vVert := vVert0, north := north0, east := east0 }
      : SimState)).alt ≤ fuel * (canopy_v_vert_fps * 0.3048 * dt) := by
    show alt0_ft * 0.3048 ≤ fuel * (canopy_v_vert_fps * 0.3048 * dt)
    have h1 := mul_le_mul_of_nonneg_right hfuel hc.le
    nlinarith
  obtain ⟨recs, hrecs, -⟩ := simLoop_canopy_term pressure massKg CdA northInterp eastInterp
    (deploy_alt_ft * 0.3048) (canopy_v_vert_fps * 0.3048) dt hcvdt fuel _ 0 hdep hfuel'
  refine ⟨recs, hrecs, ?_⟩
  exact simLoop_ne_nil pressure massKg CdA northInterp eastInterp
    (deploy_alt_ft * 0.3048) (canopy_v_vert_fps * 0.3048) dt fuel _ 0 recs hrecs
    (by show (0 : ℚ) < alt0_ft * 0.3048; positivity)

/-- C4 witness: concrete invalid-by-the-claim input (deploy 3 ≥
exit 1) on which the integrator still produces a non-empty record
list. -/
theorem C4_no_parameter_validation_amended_witness :
    ∃ recs, simulate_freefall_and_canopy (fun _ => 0) 1 1 1 (fun _ => 0) (fun _ => 0)
        3 2 1 0 0 0 2 = some recs
      ∧ recs ≠ [] :=
  C4_no_parameter_validation_amended (fun _ => 0) 1 1 1 (fun _ => 0) (fun _ => 0)
    3 2 1 0 0 0 2 (by norm_num) (by norm_num) (by norm_num) (by norm_num) (by norm_num)

/-- C7: counterexample.  The code records only POST-step states
(Functions.py line 268 appends `alt` after the update), so the first
recorded altitude of this valid run is 0 ft, not the exit altitude
1 ft as the claim requires. -/
theorem C7_first_record_counterexample :
    simulate_freefall_and_canopy (fun _ => 0) 1 1 1 (fun _ => 0) (fun _ => 0)
        2 1 1 0 0 0 2 = some [⟨0, 0, 0, 0, 1⟩]
    ∧ ((0 : ℚ) ≠ 1) := by
  constructor
  · norm_num [simulate_freefall_and_canopy, simLoop, stepOf, recOf, phaseOf, canopyStep,
      freefallStep, npSign]
  · norm_num

/-- C7 (amended): the trajectory is time-ordered — record k carries
time stamp k·dt, so time stamps strictly increase — its first record is
the state AFTER the first integration step applied to the exit state
(at time 0; the exit state itself is not recorded), and the last
recorded altitude is ≤ 0. -/
theorem C7_trajectory_record_amended
    (pressure : ℚ → ℚ) (alt0_ft massKg CdA : ℚ) (northInterp eastInterp : ℚ → ℚ)
    (deploy_alt_ft canopy_v_vert_fps dt vVert0 north0 east0 : ℚ) (fuel : ℕ)
    (recs : List SimRec)
    (h : simulate_freefall_and_canopy pressure alt0_ft massKg CdA northInterp eastInterp
        deploy_alt_ft canopy_v_vert_fps dt vVert0 north0 east0 fuel = some recs)
    (hdt : 0 < dt) :
    (∀ (k : ℕ) (r : SimRec), recs[k]? = some r → r.time = k * dt)
    ∧ (∀ (k : ℕ) (r r' : SimRec), recs[k]? = some r → recs[k + 1]? = some r' →
        r.time < r'.time)
    ∧ (∀ r, recs[0]? = some r → r.time = 0
        ∧ r.altFt * 0.3048
          = (stepOf pressure massKg CdA northInterp eastInterp (deploy_alt_ft * 0.3048)
              (canopy_v_vert_fps * 0.3048) dt
              { alt := alt0_ft * 0.3048, vVert := vVert0, north := north0, east := east0 }).alt)
    ∧ (∀ r, recs.getLast? = some r → r.altFt ≤ 0) := by
  unfold simulate_freefall_and_canopy at h
  have htime : ∀ (k : ℕ) (r : SimRec), recs[k]? = some r → r.time = k * dt := by
    intro k r hr
    have := simLoop_time pressure massKg CdA northInterp eastInterp (deploy_alt_ft * 0.3048)
      (canopy_v_vert_fps * 0.3048) dt fuel _ _ recs h k r hr
    rw [this]
    ring
  refine ⟨htime, ?_, ?_, ?_⟩
  · intro k r r' hr hr'
    rw [htime k r hr, htime (k + 1) r' hr']
    have hk : ((k : ℚ) + 1) * dt = k * dt + dt := by ring
    push_cast
    rw [hk]
    linarith
  · intro r hr
    have hh := simLoop_head pressure massKg CdA northInterp eastInterp
      (deploy_alt_ft * 0.3048) (canopy_v_vert_fps * 0.3048) dt fuel _ _ recs r h hr
    exact ⟨hh.2.2.1, hh.2.2.2⟩
  · intro r hr
    exact simLoop_last pressure massKg CdA northInterp eastInterp (deploy_alt_ft * 0.3048)
      (canopy_v_vert_fps * 0.3048) dt fuel _ _ recs r h hr

/-- C7 witness: the last record of a concrete completed run has
altitude ≤ 0 ft. -/
theorem C7_trajectory_record_amended_witness :
    ((⟨0, 0, 0, 0, 1⟩ : SimRec) : SimRec).altFt ≤ 0 := by
  have h := C7_trajectory_record_amended (fun _ => 0) 1 1 1 (fun _ => 0) (fun _ => 0)
    2 1 1 0 0 0 2 [⟨0, 0, 0, 0, 1⟩]
    (by norm_num [simulate_freefall_and_canopy, simLoop, stepOf, recOf, phaseOf, canopyStep,
      freefallStep, npSign])
    (by norm_num)
  exact h.2.2.2 ⟨0, 0, 0, 0, 1⟩ rfl

/-- C9: the integrator is a deterministic function of its inputs:
runs with pointwise-equal pressure profiles and pointwise-equal wind
interpolators produce identical record lists (in particular, identical
time stamps and total flight time).  In the exact-arithmetic embedding
this is the full content of run-to-run reproducibility: the recursion
performs the same operations in the same order on the same values. -/
theorem C9_deterministic
    (pA pB : ℚ → ℚ) (alt0_ft massKg CdA : ℚ) (nA nB eA eB : ℚ → ℚ)
    (deploy_alt_ft canopy_v_vert_fps dt vVert0 north0 east0 : ℚ) (fuel : ℕ)
    (hp : ∀ x, pA x = pB x) (hn : ∀ x, nA x = nB x) (he : ∀ x, eA x = eB x) :
    simulate_freefall_and_canopy pA alt0_ft massKg CdA nA eA
        deploy_alt_ft canopy_v_vert_fps dt vVert0 north0 east0 fuel
      = simulate_freefall_and_canopy pB alt0_ft massKg CdA nB eB
        deploy_alt_ft canopy_v_vert_fps dt vVert0 north0 east0 fuel := by
  rw [funext hp, funext hn, funext he]

/-- C9 witness: two syntactically different but pointwise-equal input
function triples give identical runs. -/
theorem C9_deterministic_witness :
    simulate_freefall_and_canopy (fun _ => 0) 1 1 1 (fun _ => 0) (fun _ => 0)
        2 1 1 0 0 0 2
      = simulate_freefall_and_canopy (fun x => 0 * x) 1 1 1 (fun x => 0 * x) (fun x => 0 * x)
        2 1 1 0 0 0 2 :=
  C9_deterministic (fun _ => 0) (fun x => 0 * x) 1 1 1 (fun _ => 0) (fun x => 0 * x)
    (fun _ => 0) (fun x => 0 * x) 2 1 1 0 0 0 2
    (fun x => by ring) (fun x => by ring) (fun x => by ring)

/-- C10: if the deployment altitude is at or above the exit altitude,
the integrator returns normally (given fuel for the fixed-rate
descent), every recorded step carries the Canopy phase flag, the very
first step already descends at the pinned canopy rate (first recorded
altitude = exit altitude − canopyRate·dt, in ft), and the canopy step
pins the vertical velocity to the canopy rate. -/
theorem C10_deploy_at_or_above_exit_all_canopy
    (pressure : ℚ → ℚ) (alt0_ft massKg CdA : ℚ) (northInterp eastInterp : ℚ → ℚ)
    (deploy_alt_ft canopy_v_vert_fps dt vVert0 north0 east0 : ℚ) (fuel : ℕ)
    (hdep : alt0_ft ≤ deploy_alt_ft) (hdt : 0 < dt) (hcv : 0 < canopy_v_vert_fps)
    (hfuel : alt0_ft ≤ fuel * (canopy_v_vert_fps * dt)) :
    ∃ recs, simulate_freefall_and_canopy pressure alt0_ft massKg CdA northInterp eastInterp
        deploy_alt_ft canopy_v_vert_fps dt vVert0 north0 east0 fuel = some recs
      ∧ (∀ r ∈ recs, r.phase = 1)
      ∧ (∀ r, recs[0]? = some r → r.altFt = alt0_ft - canopy_v_vert_fps * dt)
      ∧ (∀ (c1 d1 wN wE : ℚ) (s : SimState), (canopyStep c1 d1 wN wE s).vVert = c1) := by
  have hc : (0 : ℚ) < 0.3048 := by norm_num
  have hcc : (0.3048 : ℚ) ≠ 0 := by norm_num
  have hcvdt : 0 ≤ canopy_v_vert_fps * 0.3048 * dt :=
    mul_nonneg (mul_nonneg hcv.le hc.le) hdt.le
  unfold simulate_freefall_and_canopy
  have hdep' : (({ alt := alt0_ft * 0.3048, vVert := vVert0, north := north0, east := east0 }
      : SimState)).alt ≤ deploy_alt_ft * 0.3048 := by
    show alt0_ft * 0.3048 ≤ deploy_alt_ft * 0.3048
    exact (mul_le_mul_right hc).mpr hdep
  have hfuel' : (({ alt := alt0_ft * 0.3048, vVert := vVert0, north := north0, east := east0 }
      : SimState)).alt ≤ fuel * (canopy_v_vert_fps * 0.3048 * dt) := by
    show alt0_ft * 0.3048 ≤ fuel * (canopy_v_vert_fps * 0.3048 * dt)
    have h1 := mul_le_mul_of_nonneg_right hfuel hc.le
    nlinarith
  obtain ⟨recs, hrecs, hph⟩ := simLoop_canopy_term pressure massKg CdA northInterp eastInterp
    (deploy_alt_ft * 0.3048) (canopy_v_vert_fps * 0.3048) dt hcvdt fuel _ 0 hdep' hfuel'
  refine ⟨recs, hrecs, hph, ?_, fun c1 d1 wN wE s => rfl⟩
  intro r hr
  have hh := simLoop_head pressure massKg CdA northInterp eastInterp
    (deploy_alt_ft * 0.3048) (canopy_v_vert_fps * 0.3048) dt fuel _ _ recs r hrecs hr
  have hph0 : r.phase = 1 := hph r (List.getElem?_mem hr)
  have hdrop := hh.2.1 hph0
  apply mul_right_cancel₀ hcc
  rw [hdrop]
  show ({ alt := alt0_ft * 0.3048, vVert := vVert0, north := north0, east := east0 }
      : SimState).alt - canopy_v_vert_fps * 0.3048 * dt
    = (alt0_ft - canopy_v_vert_fps * dt) * 0.3048
  show alt0_ft * 0.3048 - canopy_v_vert_fps * 0.3048 * dt
    = (alt0_ft - canopy_v_vert_fps * dt) * 0.3048
  ring

/-- C10 witness: deploy 1 = exit 1 with fuel 2 — the run completes
with the structure guaranteed by the C10 statement at this concrete
input. -/
theorem C10_deploy_at_or_above_exit_all_canopy_witness :
    ∃ recs, simulate_freefall_and_canopy (fun _ => 0) 1 1 1 (fun _ => 0) (fun _ => 0)
        1 1 1 0 0 0 2 = some recs
      ∧ (∀ r ∈ recs, r.phase = 1)
      ∧ (∀ r, recs[0]? = some r → r.altFt = 1 - 1 * 1)
      ∧ (∀ (c1 d1 wN wE : ℚ) (s : SimState), (canopyStep c1 d1 wN wE s).vVert = c1) :=
  C10_deploy_at_or_above_exit_all_canopy (fun _ => 0) 1 1 1 (fun _ => 0) (fun _ => 0)
    1 1 1 0 0 0 2 (by norm_num) (by norm_num) (by norm_num) (by norm_num)

lemma interpLinear_first (x0 y0 x1 y1 : ℝ) (rest : List (ℝ × ℝ)) (x : ℝ) (hx : x ≤ x1) :
    interpLinear ((x0, y0) :: (x1, y1) :: rest) x
      = y0 + (y1 - y0) * (x - x0) / (x1 - x0) := by
  simp only [interpLinear]
  rw [if_pos (Or.inl hx)]

lemma interpLinear_two (x0 y0 x1 y1 : ℝ) (x : ℝ) :
    interpLinear [(x0, y0), (x1, y1)] x = y0 + (y1 - y0) * (x - x0) / (x1 - x0) := by
  simp [interpLinear]

lemma interpLinear_tail (x0 y0 x1 y1 : ℝ) (rest : List (ℝ × ℝ)) (x : ℝ)
    (hx : x1 < x) (hrest : rest ≠ []) :
    interpLinear ((x0, y0) :: (x1, y1) :: rest) x = interpLinear ((x1, y1) :: rest) x := by
  simp only [interpLinear]
  rw [if_neg]
  push_neg
  exact ⟨hx, hrest⟩

/-- Pair-level form of `interpLinear_first`. -/
lemma interpLinear_head_seg (p0 p1 : ℝ × ℝ) (rest : List (ℝ × ℝ)) (x : ℝ)
    (hx : x ≤ p1.1) :
    interpLinear (p0 :: p1 :: rest) x
      = p0.2 + (p1.2 - p0.2) * (x - p0.1) / (p1.1 - p0.1) := by
  obtain ⟨x0, y0⟩ := p0
  obtain ⟨x1, y1⟩ := p1
  exact interpLinear_first x0 y0 x1 y1 rest x hx

/-- Pair-level form of `interpLinear_two`. -/
lemma interpLinear_two_seg (p0 p1 : ℝ × ℝ) (x : ℝ) :
    interpLinear [p0, p1] x = p0.2 + (p1.2 - p0.2) * (x - p0.1) / (p1.1 - p0.1) := by
  obtain ⟨x0, y0⟩ := p0
  obtain ⟨x1, y1⟩ := p1
  exact interpLinear_two x0 y0 x1 y1 x

/-- Pair-level form of `interpLinear_tail`. -/
lemma interpLinear_tail_seg (p0 p1 : ℝ × ℝ) (rest : List (ℝ × ℝ)) (x : ℝ)
    (hx : p1.1 < x) (hrest : rest ≠ []) :
    interpLinear (p0 :: p1 :: rest) x = interpLinear (p1 :: rest) x := by
  obtain ⟨x0, y0⟩ := p0
  obtain ⟨x1, y1⟩ := p1
  exact interpLinear_tail x0 y0 x1 y1 rest x hx hrest

/-- In a breakpoint list sorted by strictly increasing abscissa the
head bounds every entry, strictly so past the head. -/
lemma chain_head_le :
    ∀ (k : ℕ) (pts : List (ℝ × ℝ)), List.Chain' (fun p q : ℝ × ℝ => p.1 < q.1) pts →
      ∀ (p0 p : ℝ × ℝ), pts[0]? = some p0 → pts[k]? = some p →
        p0.1 ≤ p.1 ∧ (0 < k → p0.1 < p.1)
  | 0, pts, hs, p0, p, h0, hk => by
    rw [h0] at hk
    cases hk
    exact ⟨le_refl _, fun h => absurd h (lt_irrefl 0)⟩
  | k + 1, pts, hs, p0, p, h0, hk => by
    cases pts with
    | nil => simp at h0
    | cons a tail =>
      rw [List.getElem?_cons_zero] at h0
      cases h0
      rw [List.getElem?_cons_succ] at hk
      cases tail with
      | nil => simp at hk
      | cons b rest =>
        have hab : p0.1 < b.1 := (List.chain'_cons.mp hs).1
        have hbp := chain_head_le k (b :: rest) (List.chain'_cons.mp hs).2 b p
          List.getElem?_cons_zero hk
        exact ⟨le_of_lt (lt_of_lt_of_le hab hbp.1), fun _ => lt_of_lt_of_le hab hbp.1⟩

/-- Inside segment `j` (between breakpoints `j` and `j + 1`) the
interpolant is that segment's line. -/
lemma interpLinear_segment :
    ∀ (pts : List (ℝ × ℝ)), List.Chain' (fun p q : ℝ × ℝ => p.1 < q.1) pts →
      ∀ (j : ℕ) (p q : ℝ × ℝ), pts[j]? = some p → pts[j + 1]? = some q →
        ∀ x, p.1 ≤ x → x ≤ q.1 →
          interpLinear pts x = p.2 + (q.2 - p.2) * (x - p.1) / (q.1 - p.1)
  | [], _, j, p, q, hp, hq, x, hx1, hx2 => by simp at hp
  | [a], _, j, p, q, hp, hq, x, hx1, hx2 => by
    rw [List.getElem?_cons_succ] at hq
    simp at hq
  | a :: b :: rest, hs, 0, p, q, hp, hq, x, hx1, hx2 => by
    rw [List.getElem?_cons_zero] at hp
    rw [List.getElem?_cons_succ, List.getElem?_cons_zero] at hq
    have hap := Option.some_inj.mp hp
    subst hap
    have hbq := Option.some_inj.mp hq
    subst hbq
    exact interpLinear_head_seg a b rest x hx2
  | a :: b :: rest, hs, j + 1, p, q, hp, hq, x, hx1, hx2 => by
    rw [List.getElem?_cons_succ] at hp hq
    cases rest with
    | nil =>
      rw [List.getElem?_cons_succ] at hq
      simp at hq
    | cons c rest =>
      have htail : List.Chain' (fun p q : ℝ × ℝ => p.1 < q.1) (b :: c :: rest) :=
        (List.chain'_cons.mp hs).2
      by_cases hxb : b.1 < x
      · rw [interpLinear_tail_seg a b (c :: rest) x hxb (by simp)]
        exact interpLinear_segment (b :: c :: rest) htail j p q hp hq x hx1 hx2
      · have hbp := chain_head_le j (b :: c :: rest) htail b p List.getElem?_cons_zero hp
        have hxb' : x ≤ b.1 := le_of_not_lt hxb
        cases j with
        | succ j =>
          exact absurd (hbp.2 (Nat.succ_pos j)) (not_lt.mpr (le_trans hx1 hxb'))
        | zero =>
          rw [List.getElem?_cons_zero] at hp
          rw [List.getElem?_cons_succ, List.getElem?_cons_zero] at hq
          have hbp' := Option.some_inj.mp hp
          subst hbp'
          have hcq := Option.some_inj.mp hq
          subst hcq
          have hx : x = b.1 := le_antisymm hxb' hx1
          subst hx
          have hab : a.1 < b.1 := (List.chain'_cons.mp hs).1
          rw [interpLinear_head_seg a b (c :: rest) b.1 (le_refl _)]
          have hne : b.1 - a.1 ≠ 0 := sub_ne_zero.mpr (ne_of_gt hab)
          rw [mul_div_assoc, div_self hne, mul_one, sub_self, mul_zero, zero_div]
          ring

/-- Above the sampled range the interpolant is the last segment's line
(linear extrapolation); for a two-point list that segment serves
everywhere. -/
lemma interpLinear_last :
    ∀ (pts : List (ℝ × ℝ)), List.Chain' (fun p q : ℝ × ℝ => p.1 < q.1) pts →
      ∀ (p q : ℝ × ℝ), pts[pts.length - 2]? = some p → pts[pts.length - 1]? = some q →
        ∀ x, q.1 ≤ x →
          interpLinear pts x = p.2 + (q.2 - p.2) * (x - p.1) / (q.1 - p.1)
  | [], _, p, q, hp, hq, x, hx => by simp at hp
  | [a], _, p, q, hp, hq, x, hx => by
    simp only [List.length_singleton] at hp hq
    rw [show (1 : ℕ) - 2 = 0 by rfl] at hp
    rw [show (1 : ℕ) - 1 = 0 by rfl] at hq
    rw [List.getElem?_cons_zero] at hp hq
    have hap := Option.some_inj.mp hp
    subst hap
    have haq := Option.some_inj.mp hq
    subst haq
    have hone : interpLinear [a] x = a.2 := by
      obtain ⟨xa, ya⟩ := a
      simp [interpLinear]
    rw [hone]
    ring
  | a :: b :: [], hs, p, q, hp, hq, x, hx => by
    simp only [List.length_cons, List.length_nil] at hp hq
    rw [show (0 + 1 + 1 : ℕ) - 2 = 0 by rfl] at hp
    rw [show (0 + 1 + 1 : ℕ) - 1 = 1 by rfl] at hq
    rw [List.getElem?_cons_zero] at hp
    rw [List.getElem?_cons_succ, List.getElem?_cons_zero] at hq
    have hap := Option.some_inj.mp hp
    subst hap
    have hbq := Option.some_inj.mp hq
    subst hbq
    exact interpLinear_two_seg a b x
  | a :: b :: c :: rest, hs, p, q, hp, hq, x, hx => by
    have hlen : (a :: b :: c :: rest).length - 2 = rest.length + 1 := by
      simp [List.length_cons]
    have hlen' : (a :: b :: c :: rest).length - 1 = rest.length + 2 := by
      simp [List.length_cons]
    rw [hlen, List.getElem?_cons_succ] at hp
    rw [hlen', List.getElem?_cons_succ] at hq
    have htail : List.Chain' (fun p q : ℝ × ℝ => p.1 < q.1) (b :: c :: rest) :=
      (List.chain'_cons.mp hs).2
    have hbq := chain_head_le (rest.length + 1) (b :: c :: rest) htail b q
      List.getElem?_cons_zero hq
    have hbx : b.1 < x := lt_of_lt_of_le (hbq.2 (Nat.succ_pos _)) hx
    rw [interpLinear_tail_seg a b (c :: rest) x hbx (by simp)]
    have hlen2 : (b :: c :: rest).length - 2 = rest.length := by simp [List.length_cons]
    have hlen2' : (b :: c :: rest).length - 1 = rest.length + 1 := by simp [List.length_cons]
    exact interpLinear_last (b :: c :: rest) htail p q
      (by rw [hlen2]; exact hp) (by rw [hlen2']; exact hq) x hx

/-- The interpolant passes through every breakpoint. -/
lemma interpLinear_node
    (pts : List (ℝ × ℝ)) (hs : List.Chain' (fun p q : ℝ × ℝ => p.1 < q.1) pts)
    (j : ℕ) (p : ℝ × ℝ) (hp : pts[j]? = some p) :
    interpLinear pts p.1 = p.2 := by
  cases j with
  | zero =>
    cases pts with
    | nil => simp at hp
    | cons a tail =>
      rw [List.getElem?_cons_zero] at hp
      have hap := Option.some_inj.mp hp
      subst hap
      cases tail with
      | nil =>
        obtain ⟨xa, ya⟩ := a
        simp [interpLinear]
      | cons b rest =>
        have hab : a.1 < b.1 := (List.chain'_cons.mp hs).1
        rw [interpLinear_head_seg a b rest a.1 (le_of_lt hab), sub_self, mul_zero,
          zero_div, add_zero]
  | succ j =>
    have hj1 : j + 1 < pts.length := by
      by_contra hk
      rw [List.getElem?_eq_none (by omega)] at hp
      exact absurd hp (by simp)
    have hj : j < pts.length := by omega
    obtain ⟨prev, hprev⟩ : ∃ v, pts[j]? = some v :=
      ⟨pts[j], List.getElem?_eq_getElem hj⟩
    have hrel : prev.1 < p.1 := by
      have hg := List.chain'_iff_get.mp hs j (by omega)
      have h1 : pts.get ⟨j, by omega⟩ = prev := by
        have hg1 := List.getElem?_eq_getElem hj
        rw [hprev] at hg1
        exact (Option.some_inj.mp hg1).symm
      have h2 : pts.get ⟨j + 1, by omega⟩ = p := by
        have hg2 := List.getElem?_eq_getElem hj1
        rw [hp] at hg2
        exact (Option.some_inj.mp hg2).symm
      rw [h1, h2] at hg
      exact hg
    rw [interpLinear_segment pts hs j prev p hprev hp p.1 (le_of_lt hrel) (le_refl _)]
    have hne : p.1 - prev.1 ≠ 0 := sub_ne_zero.mpr (ne_of_gt hrel)
    rw [mul_div_assoc, div_self hne, mul_one]
    ring

/-- Behaviour of `interpLinear` over a breakpoint table built from a
wind table by a per-sample value function `f`: node values, in-segment
interpolation, and below/above-range extrapolation by the first/last
segment's line. -/
lemma interp_table_spec (f : WindSample → ℝ) (tbl : List WindSample)
    (hsorted : List.Chain' (fun a b : WindSample => a.altitudeFt < b.altitudeFt) tbl) :
    (∀ (j : ℕ) (w : WindSample), tbl[j]? = some w →
        interpLinear (tbl.map fun u => (u.altitudeFt, f u)) w.altitudeFt = f w)
    ∧ (∀ (j : ℕ) (w w' : WindSample), tbl[j]? = some w → tbl[j + 1]? = some w' →
        ∀ x, w.altitudeFt ≤ x → x ≤ w'.altitudeFt →
          interpLinear (tbl.map fun u => (u.altitudeFt, f u)) x
            = f w + (f w' - f w) * (x - w.altitudeFt) / (w'.altitudeFt - w.altitudeFt))
    ∧ (∀ (w w' : WindSample), tbl[0]? = some w → tbl[1]? = some w' →
        ∀ x, x ≤ w.altitudeFt →
          interpLinear (tbl.map fun u => (u.altitudeFt, f u)) x
            = f w + (f w' - f w) * (x - w.altitudeFt) / (w'.altitudeFt - w.altitudeFt))
    ∧ (∀ (w w' : WindSample), tbl[tbl.length - 2]? = some w →
        tbl[tbl.length - 1]? = some w' →
        ∀ x, w'.altitudeFt ≤ x →
          interpLinear (tbl.map fun u => (u.altitudeFt, f u)) x
            = f w + (f w' - f w) * (x - w.altitudeFt) / (w'.altitudeFt - w.altitudeFt)) := by
  have hchain : List.Chain' (fun p q : ℝ × ℝ => p.1 < q.1)
      (tbl.map fun u => (u.altitudeFt, f u)) := by
    rw [List.chain'_map]
    exact hsorted
  refine ⟨?_, ?_, ?_, ?_⟩
  · intro j w hw
    have hmap : (tbl.map fun u => (u.altitudeFt, f u))[j]? = some (w.altitudeFt, f w) := by
      rw [List.getElem?_map, hw]
      rfl
    exact interpLinear_node _ hchain j (w.altitudeFt, f w) hmap
  · intro j w w' hw hw' x hx1 hx2
    have hmap : (tbl.map fun u => (u.altitudeFt, f u))[j]? = some (w.altitudeFt, f w) := by
      rw [List.getElem?_map, hw]
      rfl
    have hmap' : (tbl.map fun u => (u.altitudeFt, f u))[j + 1]?
        = some (w'.altitudeFt, f w') := by
      rw [List.getElem?_map, hw']
      rfl
    exact interpLinear_segment _ hchain j (w.altitudeFt, f w) (w'.altitudeFt, f w')
      hmap hmap' x hx1 hx2
  · intro w w' hw hw' x hx
    cases tbl with
    | nil => simp at hw
    | cons w0 tail =>
      cases tail with
      | nil =>
        rw [List.getElem?_cons_succ] at hw'
        simp at hw'
      | cons w1 rest =>
        rw [List.getElem?_cons_zero] at hw
        have h0 := Option.some_inj.mp hw
        subst h0
        rw [List.getElem?_cons_succ, List.getElem?_cons_zero] at hw'
        have h1 := Option.some_inj.mp hw'
        subst h1
        have hlt : w0.altitudeFt < w1.altitudeFt := (List.chain'_cons.mp hsorted).1
        simp only [List.map_cons]
        exact interpLinear_head_seg (w0.altitudeFt, f w0) (w1.altitudeFt, f w1)
          (rest.map fun u => (u.altitudeFt, f u)) x (le_trans hx (le_of_lt hlt))
  · intro w w' hw hw' x hx
    have hmap : (tbl.map fun u => (u.altitudeFt, f u))[
        (tbl.map fun u => (u.altitudeFt, f u)).length - 2]? = some (w.altitudeFt, f w) := by
      rw [List.length_map, List.getElem?_map, hw]
      rfl
    have hmap' : (tbl.map fun u => (u.altitudeFt, f u))[
        (tbl.map fun u => (u.altitudeFt, f u)).length - 1]? = some (w'.altitudeFt, f w') := by
      rw [List.length_map, List.getElem?_map, hw']
      rfl
    exact interpLinear_last _ hchain (w.altitudeFt, f w) (w'.altitudeFt, f w')
      hmap hmap' x hx

/-- C6: on every wind table sorted by strictly increasing altitude
(the collection invariant), both interpolators returned by
`get_wind_component_interpolators` (i) return at each sample altitude
north = −speed·cos(direction·π/180) and east =
−speed·sin(direction·π/180), (ii) interpolate linearly between
consecutive samples, and (iii) extrapolate linearly with the first
segment's line below the sampled range and the last segment's line
above it. -/
theorem C6_wind_component_interpolators (tbl : List WindSample)
    (hsorted : List.Chain' (fun a b : WindSample => a.altitudeFt < b.altitudeFt) tbl) :
    (∀ (j : ℕ) (w : WindSample), tbl[j]? = some w →
        (get_wind_component_interpolators tbl).1 w.altitudeFt
            = -(w.speedMps * Real.cos (w.directionDeg * Real.pi / 180))
          ∧ (get_wind_component_interpolators tbl).2 w.altitudeFt
            = -(w.speedMps * Real.sin (w.directionDeg * Real.pi / 180)))
    ∧ (∀ (j : ℕ) (w w' : WindSample), tbl[j]? = some w → tbl[j + 1]? = some w' →
        ∀ x, w.altitudeFt ≤ x → x ≤ w'.altitudeFt →
          (get_wind_component_interpolators tbl).1 x
              = -(w.speedMps * Real.cos (w.directionDeg * Real.pi / 180))
                + (-(w'.speedMps * Real.cos (w'.directionDeg * Real.pi / 180))
                    - -(w.speedMps * Real.cos (w.directionDeg * Real.pi / 180)))
                  * (x - w.altitudeFt) / (w'.altitudeFt - w.altitudeFt)
            ∧ (get_wind_component_interpolators tbl).2 x
              = -(w.speedMps * Real.sin (w.directionDeg * Real.pi / 180))
                + (-(w'.speedMps * Real.sin (w'.directionDeg * Real.pi / 180))
                    - -(w.speedMps * Real.sin (w.directionDeg * Real.pi / 180)))
                  * (x - w.altitudeFt) / (w'.altitudeFt - w.altitudeFt))
    ∧ (∀ (w w' : WindSample), tbl[0]? = some w → tbl[1]? = some w' →
        ∀ x, x ≤ w.altitudeFt →
          (get_wind_component_interpolators tbl).1 x
              = -(w.speedMps * Real.cos (w.directionDeg * Real.pi / 180))
                + (-(w'.speedMps * Real.cos (w'.directionDeg * Real.pi / 180))
                    - -(w.speedMps * Real.cos (w.directionDeg * Real.pi / 180)))
                  * (x - w.altitudeFt) / (w'.altitudeFt - w.altitudeFt)
            ∧ (get_wind_component_interpolators tbl).2 x
              = -(w.speedMps * Real.sin (w.directionDeg * Real.pi / 180))
                + (-(w'.speedMps * Real.sin (w'.directionDeg * Real.pi / 180))
                    - -(w.speedMps * Real.sin (w.directionDeg * Real.pi / 180)))
                  * (x - w.altitudeFt) / (w'.altitudeFt - w.altitudeFt))
    ∧ (∀ (w w' : WindSample), tbl[tbl.length - 2]? = some w →
        tbl[tbl.length - 1]? = some w' →
        ∀ x, w'.altitudeFt ≤ x →
          (get_wind_component_interpolators tbl).1 x
              = -(w.speedMps * Real.cos (w.directionDeg * Real.pi / 180))
                + (-(w'.speedMps * Real.cos (w'.directionDeg * Real.pi / 180))
                    - -(w.speedMps * Real.cos (w.directionDeg * Real.pi / 180)))
                  * (x - w.altitudeFt) / (w'.altitudeFt - w.altitudeFt)
            ∧ (get_wind_component_interpolators tbl).2 x
              = -(w.speedMps * Real.sin (w.directionDeg * Real.pi / 180))
                + (-(w'.speedMps * Real.sin (w'.directionDeg * Real.pi / 180))
                    - -(w.speedMps * Real.sin (w.directionDeg * Real.pi / 180)))
                  * (x - w.altitudeFt) / (w'.altitudeFt - w.altitudeFt)) := by
  have hN := interp_table_spec
    (fun u => u.speedMps * Real.cos (u.directionDeg * Real.pi / 180) * (-1)) tbl hsorted
  have hE := interp_table_spec
    (fun u => u.speedMps * Real.sin (u.directionDeg * Real.pi / 180) * (-1)) tbl hsorted
  simp only [mul_neg_one] at hN hE
  simp only [get_wind_component_interpolators, windNorthTable, windEastTable, mul_neg_one]
  exact ⟨fun j w hw => ⟨hN.1 j w hw, hE.1 j w hw⟩,
    fun j w w' hw hw' x hx1 hx2 =>
      ⟨hN.2.1 j w w' hw hw' x hx1 hx2, hE.2.1 j w w' hw hw' x hx1 hx2⟩,
    fun w w' hw hw' x hx =>
      ⟨hN.2.2.1 w w' hw hw' x hx, hE.2.2.1 w w' hw hw' x hx⟩,
    fun w w' hw hw' x hx =>
      ⟨hN.2.2.2 w w' hw hw' x hx, hE.2.2.2 w w' hw hw' x hx⟩⟩

/-- C6 witness: on the concrete sorted table
[(0 ft, 2 m/s, 0°), (100 ft, 3 m/s, 90°)] the north interpolator at
50 ft returns −1 (node values −2 and 0, midpoint of the segment). -/
theorem C6_wind_component_interpolators_witness :
    (get_wind_component_interpolators
        [⟨0, 2, 0⟩, ⟨100, 3, 90⟩]).1 50 = -1 := by
  have h := C6_wind_component_interpolators [⟨0, 2, 0⟩, ⟨100, 3, 90⟩]
    (by norm_num [List.chain'_cons])
  have hseg := (h.2.1 0 ⟨0, 2, 0⟩ ⟨100, 3, 90⟩ rfl rfl 50 (by norm_num) (by norm_num)).1
  rw [hseg]
  rw [show ((⟨100, 3, 90⟩ : WindSample).directionDeg * Real.pi / 180) = Real.pi / 2 by
    show (90 : ℝ) * Real.pi / 180 = Real.pi / 2
    ring]
  rw [show ((⟨0, 2, 0⟩ : WindSample).directionDeg * Real.pi / 180) = 0 by
    show (0 : ℝ) * Real.pi / 180 = 0
    ring]
  rw [Real.cos_pi_div_two, Real.cos_zero]
  show -((2 : ℝ) * 1) + (-(3 * 0) - -(2 * 1)) * (50 - 0) / (100 - 0) = -1
  norm_num

/-- C8: the glide footprint is an ordered list of exactly
CIRCLE_RESOLUTION = 200 points; the k-th point sits at the evenly
spaced angle k·(2π/199) (consecutive angular spacing constant, the
200 samples spanning the full circle endpoint-inclusively), every
point lies at distance glideDistanceM = horizontalGlideSpeedMps ·
(deployAltitudeM / canopyVerticalSpeedMps) from the exit offset, and
the circle is centred on the exit offset. -/
theorem C8_glide_circle (deploy_alt_ft canopy_v_vert_fps canopy_v_horiz_fps
    exitNorth exitEast : ℝ)
    (hdep : 0 ≤ deploy_alt_ft) (hcv : 0 < canopy_v_vert_fps)
    (hch : 0 ≤ canopy_v_horiz_fps) :
    (glide_circle_points deploy_alt_ft canopy_v_vert_fps canopy_v_horiz_fps
        exitNorth exitEast).length = 200
    ∧ (∀ k : ℕ, k < 200 →
        (glide_circle_points deploy_alt_ft canopy_v_vert_fps canopy_v_horiz_fps
            exitNorth exitEast)[k]?
          = some
            ((canopy_v_horiz_fps * 0.3048)
                * (deploy_alt_ft * 0.3048 / (canopy_v_vert_fps * 0.3048))
                * Real.cos (k * (2 * Real.pi / 199)) + exitNorth,
             (canopy_v_horiz_fps * 0.3048)
                * (deploy_alt_ft * 0.3048 / (canopy_v_vert_fps * 0.3048))
                * Real.sin (k * (2 * Real.pi / 199)) + exitEast))
    ∧ (∀ p ∈ glide_circle_points deploy_alt_ft canopy_v_vert_fps canopy_v_horiz_fps
          exitNorth exitEast,
        Real.sqrt ((p.1 - exitNorth) ^ 2 + (p.2 - exitEast) ^ 2)
          = (canopy_v_horiz_fps * 0.3048)
              * (deploy_alt_ft * 0.3048 / (canopy_v_vert_fps * 0.3048))) := by
  refine ⟨?_, ?_, ?_⟩
  · simp [glide_circle_points, linspace]
  · intro k hk
    have hang : (0 : ℝ) + (2 * Real.pi - 0) * k / ((200 : ℕ) - 1)
        = k * (2 * Real.pi / 199) := by
      push_cast
      ring
    simp only [glide_circle_points, linspace, List.getElem?_map, List.getElem?_range hk,
      Option.map_some']
    rw [hang]
  · intro p hp
    simp only [glide_circle_points, List.mem_map] at hp
    obtain ⟨θ, hθ, hpt⟩ := hp
    have hg : (0 : ℝ) ≤ (canopy_v_horiz_fps * 0.3048)
        * (deploy_alt_ft * 0.3048 / (canopy_v_vert_fps * 0.3048)) := by positivity
    rw [← hpt]
    simp only
    rw [add_sub_cancel_right, add_sub_cancel_right]
    have hsq : ((canopy_v_horiz_fps * 0.3048)
          * (deploy_alt_ft * 0.3048 / (canopy_v_vert_fps * 0.3048)) * Real.cos θ) ^ 2
        + ((canopy_v_horiz_fps * 0.3048)
          * (deploy_alt_ft * 0.3048 / (canopy_v_vert_fps * 0.3048)) * Real.sin θ) ^ 2
        = ((canopy_v_horiz_fps * 0.3048)
          * (deploy_alt_ft * 0.3048 / (canopy_v_vert_fps * 0.3048))) ^ 2 := by
      have hcs := Real.cos_sq_add_sin_sq θ
      nlinarith [hcs]
    rw [hsq]
    exact Real.sqrt_sq hg

/-- C8 witness: at a concrete valid input the footprint has exactly
200 points. -/
theorem C8_glide_circle_witness :
    (glide_circle_points 1 1 1 0 0).length = 200 :=
  (C8_glide_circle 1 1 1 0 0 (by norm_num) (by norm_num) (by norm_num)).1

end SpotHelper
